import Mathlib

/-!
Verification of the rv-thermostat control core: a shallow embedding of
`src/thermostat/controller.py`, `actuators.py`, `gpioio.py` and `schedule.py`,
with proofs about the controller state machine, the actuator sequencing, the
relay layer and the weekly schedule.

Times and temperatures are modelled as rationals; the wall clock read by
`time.time()` inside a tick is passed in as the tick's timestamp.
-/

namespace RVThermostat

/-- Configured operating mode: the `mode` literal of `Control` in `config.py`. -/
inductive CfgMode
  | off | heat | cool | auto
deriving DecidableEq

/-- Controller actuation state: the `current_mode` literal of `State` in
`controller.py`. -/
inductive CMode
  | idle | heating | cooling | off
deriving DecidableEq

/-- The `Control` configuration block of `config.py` (fields used by the
control core). -/
structure Control where
  mode : CfgMode
  setpoint_c : ℚ
  deadband_c : ℚ
  compressor_min_off_s : ℚ
  fan_lead_s : ℚ
  fan_lag_s : ℚ
  reading_offset_c : ℚ
deriving DecidableEq

/-- The `State` dataclass of `controller.py`. -/
structure State where
  last_cool_off_at : Option ℚ := none
  last_cool_on_at : Option ℚ := none
  current_mode : CMode := CMode.idle
  last_temp_c : Option ℚ := none
  last_tick_at : Option ℚ := none
deriving DecidableEq

/-- Cached logical relay states: the `state` field of each `RelayOut` of
`gpioio.py`, one per output of `Outputs` in `actuators.py`. -/
structure Relays where
  heat : Bool
  cool : Bool
  fan : Bool
deriving DecidableEq

/-- End state of `ActuatorController.all_off`: all three relays off. -/
def allOff (_r : Relays) : Relays := ⟨false, false, false⟩

/-- End state of `ActuatorController.heat_on`: cool off, fan on, (sleep), heat
on. -/
def heatOnR (r : Relays) : Relays := { r with cool := false, fan := true, heat := true }

/-- End state of `ActuatorController.cool_on`: heat off, fan on, (sleep), cool
on. -/
def coolOnR (r : Relays) : Relays := { r with heat := false, fan := true, cool := true }

/-- End state of `ActuatorController.hvac_off_with_fan_lag`: heat and cool off,
(sleep), fan off. -/
def hvacOffR (_r : Relays) : Relays := ⟨false, false, false⟩

/-- Combined controller state and relay cache. -/
structure Sys where
  s : State
  r : Relays
deriving DecidableEq

/-- `ThermostatController._can_start_compressor`. -/
def canStartCompressor (cfg : Control) (s : State) (now : ℚ) : Bool :=
  match s.last_cool_off_at with
  | none => true
  | some t => decide (cfg.compressor_min_off_s ≤ now - t)

/-- `ThermostatController._stop_hvac`: stamp `last_cool_off_at` when leaving
`cooling`, shut HVAC down with fan lag, go `idle`. -/
def stopHvac (sys : Sys) (now : ℚ) : Sys :=
  let s := sys.s
  let s := if s.current_mode = CMode.cooling then { s with last_cool_off_at := some now } else s
  { s := { s with current_mode := CMode.idle }, r := hvacOffR sys.r }

/-- `ThermostatController._start_cooling`: guarded by the compressor
minimum-off-time; a blocked demand leaves everything unchanged. -/
def startCooling (cfg : Control) (sys : Sys) (now : ℚ) : Sys :=
  if canStartCompressor cfg sys.s now then
    { s := { sys.s with current_mode := CMode.cooling, last_cool_on_at := some now },
      r := coolOnR sys.r }
  else sys

/-- `ThermostatController._start_heating`. -/
def startHeating (sys : Sys) : Sys :=
  { s := { sys.s with current_mode := CMode.heating }, r := heatOnR sys.r }

/-- The `cool_call` condition of `tick`. -/
def coolCall (cfg : Control) (t : ℚ) : Bool :=
  decide ((cfg.mode = CfgMode.cool ∨ cfg.mode = CfgMode.auto) ∧
    cfg.setpoint_c + cfg.deadband_c < t)

/-- The `heat_call` condition of `tick`. -/
def heatCall (cfg : Control) (t : ℚ) : Bool :=
  decide ((cfg.mode = CfgMode.heat ∨ cfg.mode = CfgMode.auto) ∧
    t < cfg.setpoint_c - cfg.deadband_c)

/-- `ThermostatController.tick`, with the tick's wall-clock time `now` and the
sensor reading `t` passed in. -/
def tick (cfg : Control) (sys : Sys) (now t : ℚ) : Sys :=
  let s0 := { sys.s with last_temp_c := some t, last_tick_at := some now }
  let sys1 : Sys := { sys with s := s0 }
  if cfg.mode = CfgMode.off then
    if sys1.s.current_mode ≠ CMode.off then
      { s := { sys1.s with current_mode := CMode.off }, r := allOff sys1.r }
    else sys1
  else
    if ¬coolCall cfg t ∧ ¬heatCall cfg t then
      if sys1.s.current_mode = CMode.heating ∨ sys1.s.current_mode = CMode.cooling then
        stopHvac sys1 now
      else sys1
    else if coolCall cfg t ∧ sys1.s.current_mode ≠ CMode.cooling then
      let sys2 := if sys1.s.current_mode = CMode.heating then stopHvac sys1 now else sys1
      startCooling cfg sys2 now
    else if heatCall cfg t ∧ sys1.s.current_mode ≠ CMode.heating then
      let sys2 := if sys1.s.current_mode = CMode.cooling then stopHvac sys1 now else sys1
      startHeating sys2
    else sys1

/-- Fold `tick` over a list of `(now, temperature)` inputs with a fixed
configuration. -/
def run (cfg : Control) (sys : Sys) (inputs : List (ℚ × ℚ)) : Sys :=
  inputs.foldl (fun a p => tick cfg a p.1 p.2) sys

/-- Fold `tick` over inputs that carry a (possibly changing) configuration
snapshot, as the UI may rewrite the config between ticks. -/
def runMulti (sys : Sys) (inputs : List (Control × ℚ × ℚ)) : Sys :=
  inputs.foldl (fun a p => tick p.1 a p.2.1 p.2.2) sys

/-- Fresh controller state (dataclass defaults). -/
def initState : State := {}

/-- Relay caches right after construction: `RelayOut.__init__` drives the
logical-off level and caches `state = False`. -/
def initRelays : Relays := ⟨false, false, false⟩

/-- System right after startup. -/
def sysInit : Sys := ⟨initState, initRelays⟩

/-! ### Relay layer (`gpioio.py`) with hardware-write counting -/

/-- `RelayOut.set(on)`: returns the new cached logical state and the number of
hardware-level `GPIO.output` writes issued (1 when the request differs from
the cached state, else 0). -/
def relaySet (b st : Bool) : Bool × Nat := if b ≠ st then (b, 1) else (st, 0)

/-- `ActuatorController.all_off` over the three cached relay states, counting
hardware writes per relay (heat, cool, fan). -/
def allOffW (r : Relays) : Relays × (Nat × Nat × Nat) :=
  let hw := relaySet false r.heat
  let cw := relaySet false r.cool
  let fw := relaySet false r.fan
  (⟨hw.1, cw.1, fw.1⟩, (hw.2, cw.2, fw.2))

/-! ### Timed actuator model (`actuators.py`)

Each `ActuatorController` method blocks on `time.sleep`, so a call starting at
time `τ` issues its relay writes at explicit timestamps.  The fan's cached
state is enriched to `Option ℚ`: `some σ` means the fan relay is logically on
and was last switched on at time `σ` (continuously on since then); `none`
means off.  Heat and cool keep plain cached booleans. -/

/-- Named relay line of `Outputs`. -/
inductive RName
  | heat | cool | fan
deriving DecidableEq

/-- A hardware-level relay write at a point in time. -/
structure Write where
  time : ℚ
  relay : RName
  isOn : Bool
deriving DecidableEq

/-- Cached actuator relay states with the fan's on-since timestamp. -/
structure ActSt where
  heat : Bool
  cool : Bool
  fanSince : Option ℚ
deriving DecidableEq

/-- `RelayOut.set` on the heat relay at time `τ`. -/
def setHeatT (τ : ℚ) (b : Bool) (st : ActSt) : ActSt × List Write :=
  if b ≠ st.heat then ({ st with heat := b }, [⟨τ, RName.heat, b⟩]) else (st, [])

/-- `RelayOut.set` on the cool relay at time `τ`. -/
def setCoolT (τ : ℚ) (b : Bool) (st : ActSt) : ActSt × List Write :=
  if b ≠ st.cool then ({ st with cool := b }, [⟨τ, RName.cool, b⟩]) else (st, [])

/-- `RelayOut.set` on the fan relay at time `τ`, recording the switch-on
time. -/
def setFanT (τ : ℚ) (b : Bool) (st : ActSt) : ActSt × List Write :=
  if b ≠ st.fanSince.isSome then
    ({ st with fanSince := if b then some τ else none }, [⟨τ, RName.fan, b⟩])
  else (st, [])

/-- `all_off` starting at `τ`: three immediate writes, no delay; the call ends
at `τ`. -/
def actAllOff (τ : ℚ) (st : ActSt) : ActSt × List Write × ℚ :=
  let a := setHeatT τ false st
  let b := setCoolT τ false a.1
  let c := setFanT τ false b.1
  (c.1, a.2 ++ b.2 ++ c.2, τ)

/-- `heat_on` starting at `τ`: cool off, fan on, `sleep(fan_lead_s)`, heat on;
the call ends at `τ + lead`. -/
def actHeatOn (lead τ : ℚ) (st : ActSt) : ActSt × List Write × ℚ :=
  let a := setCoolT τ false st
  let b := setFanT τ true a.1
  let c := setHeatT (τ + lead) true b.1
  (c.1, a.2 ++ b.2 ++ c.2, τ + lead)

/-- `cool_on` starting at `τ`: heat off, fan on, `sleep(fan_lead_s)`, cool on;
the call ends at `τ + lead`. -/
def actCoolOn (lead τ : ℚ) (st : ActSt) : ActSt × List Write × ℚ :=
  let a := setHeatT τ false st
  let b := setFanT τ true a.1
  let c := setCoolT (τ + lead) true b.1
  (c.1, a.2 ++ b.2 ++ c.2, τ + lead)

/-- `hvac_off_with_fan_lag` starting at `τ`: heat and cool off at `τ`,
`sleep(fan_lag_s)`, fan off at `τ + lag`; the call ends at `τ + lag`. -/
def actHvacOff (lag τ : ℚ) (st : ActSt) : ActSt × List Write × ℚ :=
  let a := setHeatT τ false st
  let b := setCoolT τ false a.1
  let c := setFanT (τ + lag) false b.1
  (c.1, a.2 ++ b.2 ++ c.2, τ + lag)

/-- A public method of `ActuatorController`. -/
inductive ACall
  | allOff | heatOn | coolOn | hvacOff
deriving DecidableEq

/-- Dispatch a call starting at time `τ`. -/
def actStep (lead lag : ℚ) (c : ACall) (τ : ℚ) (st : ActSt) : ActSt × List Write × ℚ :=
  match c with
  | ACall.allOff => actAllOff τ st
  | ACall.heatOn => actHeatOn lead τ st
  | ACall.coolOn => actCoolOn lead τ st
  | ACall.hvacOff => actHvacOff lag τ st

/-- When a call starting at `τ` returns (the blocking sleeps included). -/
def endTime (lead lag : ℚ) (c : ACall) (τ : ℚ) : ℚ :=
  match c with
  | ACall.allOff => τ
  | ACall.heatOn => τ + lead
  | ACall.coolOn => τ + lead
  | ACall.hvacOff => τ + lag

/-- A single-threaded caller can only start a call after the previous one
returned. -/
def Admissible (lead lag : ℚ) : ℚ → List (ℚ × ACall) → Prop
  | _, [] => True
  | clock, p :: rest => clock ≤ p.1 ∧ Admissible lead lag (endTime lead lag p.2 p.1) rest

/-- Run a sequence of timed actuator calls, collecting every hardware write. -/
def runActs (lead lag : ℚ) (st : ActSt) : List (ℚ × ACall) → ActSt × List Write
  | [] => (st, [])
  | p :: rest =>
    let a := actStep lead lag p.2 p.1 st
    let b := runActs lead lag a.1 rest
    (b.1, a.2.1 ++ b.2)

/-- Fan-lead check for one call: any heat/cool energization the call performs
(it fires at `τ + lead`) happens at least `lead` seconds after the fan relay
last switched on. -/
def callLeadOK (lead lag : ℚ) (c : ACall) (τ : ℚ) (st : ActSt) : Bool :=
  match c with
  | ACall.heatOn | ACall.coolOn =>
    match (actStep lead lag c τ st).1.fanSince with
    | some σ => decide (σ + lead ≤ τ + lead)
    | none => false
  | _ => true

/-- Fan-lead check along a whole call sequence. -/
def runLeadOK (lead lag : ℚ) (st : ActSt) : List (ℚ × ACall) → Bool
  | [] => true
  | p :: rest =>
    callLeadOK lead lag p.2 p.1 st && runLeadOK lead lag (actStep lead lag p.2 p.1 st).1 rest

/-! ### Weekly schedule (`schedule.py`)

Days are indexed `0..6` like Python's `datetime.weekday()` (`DAYS[0]` is
Monday).  Event times are the raw `'HH:MM'` strings the file stores and
Python compares lexicographically; `str(e['time'])` and `str(e['mode'])` are
not validated, so both stay `String`. -/

/-- The `Event` dataclass of `schedule.py`. -/
structure Event where
  time : String
  mode : String
  setpoint_c : ℚ
deriving DecidableEq

/-- The comparison `load_schedule`'s `evs.sort(key=lambda E: E.time)` sorts
by. -/
def evLe (a b : Event) : Prop := a.time ≤ b.time

instance : DecidableRel evLe := fun a b => inferInstanceAs (Decidable (a.time ≤ b.time))

instance : IsTotal Event evLe := ⟨fun a b => le_total a.time b.time⟩

instance : IsTrans Event evLe := ⟨fun _ _ _ h1 h2 => le_trans h1 h2⟩

/-- One raw per-day YAML record: `some e` when the record parses (`time`,
`mode`, `setpoint_c` present and castable), `none` for a malformed record the
`try`/`except` of `load_schedule` skips. -/
abbrev RawRecord := Option Event

/-- One day of `load_schedule`: keep the first 6 records in file order
(`lst[:6]`), drop the malformed ones, then stable-sort by the time string. -/
def loadDay (raw : List RawRecord) : List Event :=
  List.insertionSort evLe ((raw.take 6).filterMap id)

/-- The `Schedule` dataclass: one event list per weekday. -/
structure Schedule where
  days : Fin 7 → List Event

/-- `load_schedule` over the parsed YAML mapping (day → raw record list). -/
def loadSchedule (raw : Fin 7 → List RawRecord) : Schedule :=
  ⟨fun d => loadDay (raw d)⟩

/-- `save_schedule`: per day, the first 6 events written back as well-formed
records; `yaml.safe_dump(out, sort_keys=True)` makes the emitted bytes a
function of this per-day record mapping, so byte-stability is equality of
these mappings. -/
def saveSchedule (sch : Schedule) : Fin 7 → List RawRecord :=
  fun d => ((sch.days d).take 6).map some

/-- `DAYS[(when.weekday() - 1) % 7]`. -/
def prevDay (d : Fin 7) : Fin 7 := ⟨(d.val + 6) % 7, Nat.mod_lt _ (by norm_num)⟩

/-- The `for e in evs: if e.time <= now_hm: last = e else: break` loop of
`evaluate`. -/
def pickLast (now_hm : String) : List Event → Option Event → Option Event
  | [], last => last
  | e :: rest, last => if e.time ≤ now_hm then pickLast now_hm rest (some e) else last

/-- `evaluate(sch, when)` with the datetime split into weekday index and the
`'%H:%M'` string. -/
def evaluate (sch : Schedule) (wd : Fin 7) (now_hm : String) : Option (String × ℚ) :=
  let evs := sch.days wd
  if evs = [] then none
  else
    let last := pickLast now_hm evs none
    let last :=
      match last with
      | none => (sch.days (prevDay wd)).getLast?
      | some e => some e
    last.map fun e => (e.mode, e.setpoint_c)

/-! ### Concrete inputs used by the witnesses and counterexamples -/

/-- The rational 0.5 (the scenario deadband). -/
def qHalf : ℚ := ⟨1, 2, by decide, by decide⟩

/-- The rational 22.3 (the in-band scenario temperature). -/
def q223 : ℚ := ⟨223, 10, by decide, by decide⟩

/-- Scenario configuration: `mode=auto`, `setpoint_c=22.0`, `deadband_c=0.5`,
defaults elsewhere. -/
def cfgAuto : Control := ⟨CfgMode.auto, 22, qHalf, 300, 5, 15, 0⟩

/-- `cfgAuto` with a nonzero calibration offset `reading_offset_c = 1`. -/
def cfgAutoOffset : Control := ⟨CfgMode.auto, 22, qHalf, 300, 5, 15, 1⟩

/-- Configuration with `mode=off`. -/
def cfgModeOff : Control := ⟨CfgMode.off, 22, qHalf, 300, 5, 15, 0⟩

/-- A controller currently cooling (cool and fan relays on). -/
def sysCooling : Sys :=
  ⟨{ current_mode := CMode.cooling, last_cool_on_at := some 0 }, ⟨false, true, true⟩⟩

/-- Actuator relay caches right after construction: everything off. -/
def actStInit : ActSt := ⟨false, false, none⟩

/-- Actuator caches while heating with the fan running since time 0. -/
def actStHvac : ActSt := ⟨true, false, some 0⟩

/-- A concrete admissible actuator call sequence: `cool_on` at 0 (ends 5),
`hvac_off_with_fan_lag` at 20 (ends 35), `heat_on` at 40. -/
def callsW : List (ℚ × ACall) := [(0, ACall.coolOn), (20, ACall.hvacOff), (40, ACall.heatOn)]

/-- Monday's only event. -/
def evMon : Event := ⟨"08:00", "heat", 21⟩

/-- A schedule whose Monday (day 0) has one event and whose Tuesday is
empty. -/
def schC4 : Schedule := ⟨fun d => if d = 0 then [evMon] else []⟩

/-- A well-formed record at 08:00. -/
def evDupA : Event := ⟨"08:00", "heat", 21⟩

/-- A different well-formed record at the same time 08:00. -/
def evDupB : Event := ⟨"08:00", "cool", 25⟩

/-- A schedule file whose Monday holds two records with the same
time-of-day. -/
def rawDup : Fin 7 → List RawRecord := fun d => if d = 0 then [some evDupA, some evDupB] else []

/-- Seven raw records in file order; the third is malformed, and the earliest
time of day (`01:00`) sits beyond position 6. -/
def rawBad : List RawRecord :=
  [some ⟨"09:00", "heat", 20⟩, some ⟨"07:00", "heat", 20⟩, none,
   some ⟨"05:00", "cool", 24⟩, some ⟨"06:00", "cool", 24⟩, some ⟨"08:00", "auto", 22⟩,
   some ⟨"01:00", "heat", 19⟩]

/-- Seven valid raw records in file order, the earliest time of day last. -/
def rawSeven : List RawRecord :=
  [some ⟨"09:00", "heat", 20⟩, some ⟨"07:00", "heat", 20⟩, some ⟨"03:00", "heat", 20⟩,
   some ⟨"05:00", "cool", 24⟩, some ⟨"06:00", "cool", 24⟩, some ⟨"08:00", "auto", 22⟩,
   some ⟨"01:00", "heat", 19⟩]

/-! ## Controller lemmas -/

theorem canStartCompressor_spec (cfg : Control) (s : State) (now : ℚ)
    (h : canStartCompressor cfg s now = true) :
    s.last_cool_off_at = none ∨
      ∃ t0, s.last_cool_off_at = some t0 ∧ cfg.compressor_min_off_s ≤ now - t0 := by
  unfold canStartCompressor at h
  rcases hs : s.last_cool_off_at with _ | t0
  · exact Or.inl rfl
  · refine Or.inr ⟨t0, rfl, ?_⟩
    rw [hs] at h
    simpa using h

/-- Any tick that moves the controller into `cooling` passed the compressor
minimum-off-time guard on the pre-tick state. -/
theorem tick_start_cooling_guard (cfg : Control) (sys : Sys) (now t : ℚ)
    (hne : sys.s.current_mode ≠ CMode.cooling)
    (hc : (tick cfg sys now t).s.current_mode = CMode.cooling) :
    canStartCompressor cfg sys.s now = true := by
  simp only [tick, stopHvac, startCooling, startHeating, canStartCompressor] at hc ⊢
  split_ifs at hc <;> simp_all

/-- A tick either leaves `last_cool_off_at` alone or stamps it with the tick's
own time. -/
theorem tick_stamp_cases (cfg : Control) (sys : Sys) (now t : ℚ) :
    (tick cfg sys now t).s.last_cool_off_at = sys.s.last_cool_off_at ∨
      (tick cfg sys now t).s.last_cool_off_at = some now := by
  simp only [tick, stopHvac, startCooling, startHeating]
  split_ifs <;> simp

/-- A cooling→idle tick stamps `last_cool_off_at` with the tick's time. -/
theorem tick_cooling_to_idle_stamp (cfg : Control) (sys : Sys) (now t : ℚ)
    (h1 : sys.s.current_mode = CMode.cooling)
    (h2 : (tick cfg sys now t).s.current_mode = CMode.idle) :
    (tick cfg sys now t).s.last_cool_off_at = some now := by
  simp only [tick, stopHvac, startCooling, startHeating] at h2 ⊢
  split_ifs at h2 ⊢ <;> simp_all

/-- Once stamped, `last_cool_off_at` never gets smaller along a run whose tick
times stay at or above the stamp. -/
theorem run_stamp_persist (cfg : Control) :
    ∀ (L : List (ℚ × ℚ)) (sys : Sys) (u : ℚ),
      sys.s.last_cool_off_at = some u →
      List.Pairwise (fun a b : ℚ × ℚ => a.1 ≤ b.1) L →
      (∀ p ∈ L, u ≤ p.1) →
      ∃ u', u ≤ u' ∧ (run cfg sys L).s.last_cool_off_at = some u'
  | [], _, u, h, _, _ => ⟨u, le_refl u, h⟩
  | p :: L, sys, u, h, hp, hb => by
    have hrun : run cfg sys (p :: L) = run cfg (tick cfg sys p.1 p.2) L := rfl
    have hpair := List.pairwise_cons.mp hp
    rcases tick_stamp_cases cfg sys p.1 p.2 with hs | hs
    · obtain ⟨u', h1, h2⟩ := run_stamp_persist cfg L (tick cfg sys p.1 p.2) u
        (hs.trans h) hpair.2 (fun q hq => hb q (List.mem_cons_of_mem _ hq))
      exact ⟨u', h1, by rwa [hrun]⟩
    · have hb1 : u ≤ p.1 := hb p (List.mem_cons_self _ _)
      obtain ⟨u', h1, h2⟩ := run_stamp_persist cfg L (tick cfg sys p.1 p.2) p.1
        hs hpair.2 (fun q hq => hpair.1 q hq)
      exact ⟨u', hb1.trans h1, by rwa [hrun]⟩

/-- Every write `setHeatT` issues is the heat relay at the given time. -/
theorem mem_setHeatT (τ : ℚ) (b : Bool) (st : ActSt) :
    ∀ w ∈ (setHeatT τ b st).2, w = ⟨τ, RName.heat, b⟩ := by
  unfold setHeatT; split_ifs <;> simp

/-- Every write `setCoolT` issues is the cool relay at the given time. -/
theorem mem_setCoolT (τ : ℚ) (b : Bool) (st : ActSt) :
    ∀ w ∈ (setCoolT τ b st).2, w = ⟨τ, RName.cool, b⟩ := by
  unfold setCoolT; split_ifs <;> simp

/-- Every write `setFanT` issues is the fan relay at the given time. -/
theorem mem_setFanT (τ : ℚ) (b : Bool) (st : ActSt) :
    ∀ w ∈ (setFanT τ b st).2, w = ⟨τ, RName.fan, b⟩ := by
  unfold setFanT; split_ifs <;> simp

/-- `all_off` leaves the fan logically off. -/
theorem actAllOff_fanSince (τ : ℚ) (st : ActSt) : (actAllOff τ st).1.fanSince = none := by
  rcases st with ⟨h, c, f⟩
  cases h <;> cases c <;> rcases f with _ | σ <;>
    simp [actAllOff, setHeatT, setCoolT, setFanT]

/-- `hvac_off_with_fan_lag` leaves the fan logically off. -/
theorem actHvacOff_fanSince (lag τ : ℚ) (st : ActSt) :
    (actHvacOff lag τ st).1.fanSince = none := by
  rcases st with ⟨h, c, f⟩
  cases h <;> cases c <;> rcases f with _ | σ <;>
    simp [actHvacOff, setHeatT, setCoolT, setFanT]

/-- After `heat_on` the fan is on; it kept its old on-since time when it was
already running, and switched on at the call start otherwise. -/
theorem actHeatOn_fanSince (lead τ : ℚ) (st : ActSt) :
    (actHeatOn lead τ st).1.fanSince = some (st.fanSince.getD τ) := by
  rcases st with ⟨h, c, f⟩
  cases h <;> cases c <;> rcases f with _ | σ <;>
    simp [actHeatOn, setHeatT, setCoolT, setFanT]

/-- After `cool_on` the fan is on, as for `heat_on`. -/
theorem actCoolOn_fanSince (lead τ : ℚ) (st : ActSt) :
    (actCoolOn lead τ st).1.fanSince = some (st.fanSince.getD τ) := by
  rcases st with ⟨h, c, f⟩
  cases h <;> cases c <;> rcases f with _ | σ <;>
    simp [actCoolOn, setHeatT, setCoolT, setFanT]

/-- The fan-lead check passes for a `heat_on` call whose start time is past
the fan's on-since time. -/
theorem callLeadOK_heatOn (lead lag τ : ℚ) (st : ActSt)
    (h : ∀ σ, st.fanSince = some σ → σ ≤ τ) :
    callLeadOK lead lag ACall.heatOn τ st = true := by
  have hf := actHeatOn_fanSince lead τ st
  simp only [callLeadOK, actStep, hf]
  rcases hst : st.fanSince with _ | σ
  · simp [hst]
  · have := h σ hst
    simp [hst]
    linarith

/-- The fan-lead check passes for a `cool_on` call whose start time is past
the fan's on-since time. -/
theorem callLeadOK_coolOn (lead lag τ : ℚ) (st : ActSt)
    (h : ∀ σ, st.fanSince = some σ → σ ≤ τ) :
    callLeadOK lead lag ACall.coolOn τ st = true := by
  have hf := actCoolOn_fanSince lead τ st
  simp only [callLeadOK, actStep, hf]
  rcases hst : st.fanSince with _ | σ
  · simp [hst]
  · have := h σ hst
    simp [hst]
    linarith

/-- The fan-lead check holds along every admissible (single-threaded,
non-overlapping) call sequence, given a nonnegative lead time. -/
theorem runLeadOK_of_admissible (lead lag : ℚ) (hlead : 0 ≤ lead) :
    ∀ (calls : List (ℚ × ACall)) (clock : ℚ) (st : ActSt),
      (∀ σ, st.fanSince = some σ → σ ≤ clock) →
      Admissible lead lag clock calls →
      runLeadOK lead lag st calls = true
  | [], _, _, _, _ => rfl
  | (τ, c) :: rest, clock, st, hinv, hadm => by
    obtain ⟨h1, h2⟩ := hadm
    have hbound : ∀ σ, st.fanSince = some σ → σ ≤ τ := fun σ hσ => (hinv σ hσ).trans h1
    cases c with
    | allOff =>
      have hnew : ∀ σ, (actStep lead lag ACall.allOff τ st).1.fanSince = some σ →
          σ ≤ endTime lead lag ACall.allOff τ := by
        intro σ hσ
        rw [show (actStep lead lag ACall.allOff τ st).1.fanSince = none from
          actAllOff_fanSince τ st] at hσ
        cases hσ
      have htail := runLeadOK_of_admissible lead lag hlead rest _ _ hnew h2
      simp only [runLeadOK, Bool.and_eq_true]
      exact ⟨rfl, htail⟩
    | hvacOff =>
      have hnew : ∀ σ, (actStep lead lag ACall.hvacOff τ st).1.fanSince = some σ →
          σ ≤ endTime lead lag ACall.hvacOff τ := by
        intro σ hσ
        rw [show (actStep lead lag ACall.hvacOff τ st).1.fanSince = none from
          actHvacOff_fanSince lag τ st] at hσ
        cases hσ
      have htail := runLeadOK_of_admissible lead lag hlead rest _ _ hnew h2
      simp only [runLeadOK, Bool.and_eq_true]
      exact ⟨rfl, htail⟩
    | heatOn =>
      have hnew : ∀ σ, (actStep lead lag ACall.heatOn τ st).1.fanSince = some σ →
          σ ≤ endTime lead lag ACall.heatOn τ := by
        intro σ hσ
        rw [show (actStep lead lag ACall.heatOn τ st).1.fanSince =
          some (st.fanSince.getD τ) from actHeatOn_fanSince lead τ st] at hσ
        obtain rfl := Option.some.inj hσ
        rcases hst : st.fanSince with _ | σ0
        · simp only [hst, Option.getD_none, endTime]
          linarith
        · have := hbound σ0 hst
          simp only [hst, Option.getD_some, endTime]
          linarith
      have htail := runLeadOK_of_admissible lead lag hlead rest _ _ hnew h2
      simp only [runLeadOK, Bool.and_eq_true]
      exact ⟨callLeadOK_heatOn lead lag τ st hbound, htail⟩
    | coolOn =>
      have hnew : ∀ σ, (actStep lead lag ACall.coolOn τ st).1.fanSince = some σ →
          σ ≤ endTime lead lag ACall.coolOn τ := by
        intro σ hσ
        rw [show (actStep lead lag ACall.coolOn τ st).1.fanSince =
          some (st.fanSince.getD τ) from actCoolOn_fanSince lead τ st] at hσ
        obtain rfl := Option.some.inj hσ
        rcases hst : st.fanSince with _ | σ0
        · simp only [hst, Option.getD_none, endTime]
          linarith
        · have := hbound σ0 hst
          simp only [hst, Option.getD_some, endTime]
          linarith
      have htail := runLeadOK_of_admissible lead lag hlead rest _ _ hnew h2
      simp only [runLeadOK, Bool.and_eq_true]
      exact ⟨callLeadOK_coolOn lead lag τ st hbound, htail⟩

/-- A tick preserves "state `off` implies all relays off". -/
theorem tick_relays_inv (cfg : Control) (sys : Sys) (now t : ℚ)
    (h : sys.s.current_mode = CMode.off → sys.r = ⟨false, false, false⟩) :
    (tick cfg sys now t).s.current_mode = CMode.off →
      (tick cfg sys now t).r = ⟨false, false, false⟩ := by
  simp only [tick, stopHvac, startCooling, startHeating, allOff, hvacOffR, coolOnR, heatOnR]
  split_ifs <;> simp_all

/-- The relay-off invariant holds along every run from startup. -/
theorem runMulti_relays_inv :
    ∀ (L : List (Control × ℚ × ℚ)) (sys : Sys),
      (sys.s.current_mode = CMode.off → sys.r = ⟨false, false, false⟩) →
      ((runMulti sys L).s.current_mode = CMode.off →
        (runMulti sys L).r = ⟨false, false, false⟩)
  | [], _, h => h
  | p :: L, sys, h => runMulti_relays_inv L _ (tick_relays_inv p.1 sys p.2.1 p.2.2 h)

/-! ## Claim theorems -/

/-- C1: `current_mode` transitions to `cooling` only when `last_cool_off_at`
is unset or at least `compressor_min_off_s` seconds old, and along any run
with nondecreasing tick times a cooling→idle transition at `t1` followed by a
later transition into `cooling` at `t2` has `t2 - t1 ≥ compressor_min_off_s`:
no cooling→idle→cooling pair closer than the minimum off time. -/
theorem compressor_min_off_respected :
    (∀ (cfg : Control) (sys : Sys) (now t : ℚ),
        sys.s.current_mode ≠ CMode.cooling →
        (tick cfg sys now t).s.current_mode = CMode.cooling →
        sys.s.last_cool_off_at = none ∨
          ∃ t0, sys.s.last_cool_off_at = some t0 ∧
            cfg.compressor_min_off_s ≤ now - t0)
    ∧
    (∀ (cfg : Control) (A : Sys) (t1 x1 : ℚ) (mid : List (ℚ × ℚ)) (t2 x2 : ℚ),
        A.s.current_mode = CMode.cooling →
        (tick cfg A t1 x1).s.current_mode = CMode.idle →
        List.Pairwise (fun a b : ℚ × ℚ => a.1 ≤ b.1) mid →
        (∀ p ∈ mid, t1 ≤ p.1) →
        (run cfg (tick cfg A t1 x1) mid).s.current_mode ≠ CMode.cooling →
        (tick cfg (run cfg (tick cfg A t1 x1) mid) t2 x2).s.current_mode = CMode.cooling →
        cfg.compressor_min_off_s ≤ t2 - t1) := by
  constructor
  · intro cfg sys now t hne hc
    exact canStartCompressor_spec cfg sys.s now (tick_start_cooling_guard cfg sys now t hne hc)
  · intro cfg A t1 x1 mid t2 x2 hA h1 hpw hge hB h2
    have hst : (tick cfg A t1 x1).s.last_cool_off_at = some t1 :=
      tick_cooling_to_idle_stamp cfg A t1 x1 hA h1
    obtain ⟨u, hu1, hu2⟩ := run_stamp_persist cfg mid (tick cfg A t1 x1) t1 hst hpw hge
    rcases canStartCompressor_spec cfg _ t2 (tick_start_cooling_guard cfg _ t2 x2 hB h2) with
      hnone | ⟨t0, ht0, hle⟩
    · rw [hu2] at hnone
      cases hnone
    · rw [hu2] at ht0
      obtain rfl : u = t0 := Option.some.inj ht0
      linarith

/-- Witness for C1: a fresh start (no stamp) may begin cooling, and in a
concrete cooling→idle→cooling trace (stop at `t=100`, restart demand granted
at `t=400` with `compressor_min_off_s = 300`) the spacing bound holds. -/
theorem compressor_min_off_respected_witness :
    (sysInit.s.last_cool_off_at = none ∨
      ∃ t0, sysInit.s.last_cool_off_at = some t0 ∧
        cfgAuto.compressor_min_off_s ≤ 0 - t0) ∧
    cfgAuto.compressor_min_off_s ≤ (400 : ℚ) - 100 :=
  ⟨compressor_min_off_respected.1 cfgAuto sysInit 0 23 (by decide)
      (by with_unfolding_all decide),
   compressor_min_off_respected.2 cfgAuto sysCooling 100 22 [] 400 23 (by decide)
     (by with_unfolding_all decide) List.Pairwise.nil (by simp)
     (by with_unfolding_all decide) (by with_unfolding_all decide)⟩

/-- C2: after any tick executed with configured mode `off`, the heat, cool and
fan relays are all logically off and `current_mode = off`; the `all_off` used
by this branch issues every write at the call instant (no fan-lag delay). -/
theorem mode_off_tick_forces_all_off :
    (∀ (L : List (Control × ℚ × ℚ)) (c : Control) (now t : ℚ),
        c.mode = CfgMode.off →
        (tick c (runMulti sysInit L) now t).r = ⟨false, false, false⟩ ∧
        (tick c (runMulti sysInit L) now t).s.current_mode = CMode.off)
    ∧ (∀ (τ : ℚ) (st : ActSt), ∀ w ∈ (actAllOff τ st).2.1, w.time = τ) := by
  constructor
  · intro L c now t hc
    have hinv := runMulti_relays_inv L sysInit (fun h => absurd h (by decide))
    simp only [tick, allOff]
    rw [if_pos hc]
    split_ifs with h2
    · exact ⟨rfl, rfl⟩
    · have hoff : (runMulti sysInit L).s.current_mode = CMode.off := by
        simpa using h2
      exact ⟨hinv hoff, hoff⟩
  · intro τ st w hw
    rcases List.mem_append.mp hw with h | h
    · rcases List.mem_append.mp h with h2 | h2
      · rw [mem_setHeatT τ false st w h2]
      · rw [mem_setCoolT τ false _ w h2]
    · rw [mem_setFanT τ false _ w h]

/-- Witness for C2: a concrete off-mode tick from startup. -/
theorem mode_off_tick_forces_all_off_witness :
    (tick cfgModeOff (runMulti sysInit []) 5 25).r = ⟨false, false, false⟩ ∧
    (tick cfgModeOff (runMulti sysInit []) 5 25).s.current_mode = CMode.off :=
  mode_off_tick_forces_all_off.1 [] cfgModeOff 5 25 rfl

/-- C3: across every admissible execution of `ActuatorController`, a heat or
cool energization only fires once the fan relay has been on for at least
`fan_lead_s` seconds (`heat_on`/`cool_on` switch the opposing relay off and
the fan on at the call start, then energize `fan_lead_s` later), and
`hvac_off_with_fan_lag` de-energizes heat and cool at the call start while its
fan-off write only happens `fan_lag_s` seconds later. -/
theorem fan_lead_lag_sequencing :
    (∀ (lead lag clock : ℚ) (st : ActSt) (calls : List (ℚ × ACall)),
        0 ≤ lead →
        (∀ σ, st.fanSince = some σ → σ ≤ clock) →
        Admissible lead lag clock calls →
        runLeadOK lead lag st calls = true)
    ∧ (∀ (lead τ : ℚ) (st : ActSt), ∀ w ∈ (actHeatOn lead τ st).2.1,
        (w.relay = RName.cool → w = ⟨τ, RName.cool, false⟩) ∧
        (w.relay = RName.fan → w = ⟨τ, RName.fan, true⟩) ∧
        (w.relay = RName.heat → w = ⟨τ + lead, RName.heat, true⟩))
    ∧ (∀ (lead τ : ℚ) (st : ActSt), ∀ w ∈ (actCoolOn lead τ st).2.1,
        (w.relay = RName.heat → w = ⟨τ, RName.heat, false⟩) ∧
        (w.relay = RName.fan → w = ⟨τ, RName.fan, true⟩) ∧
        (w.relay = RName.cool → w = ⟨τ + lead, RName.cool, true⟩))
    ∧ (∀ (lag τ : ℚ) (st : ActSt), ∀ w ∈ (actHvacOff lag τ st).2.1,
        (w.relay = RName.fan → w = ⟨τ + lag, RName.fan, false⟩) ∧
        (w.relay ≠ RName.fan → w.isOn = false ∧ w.time = τ)) := by
  refine ⟨fun lead lag clock st calls hlead hinv hadm =>
    runLeadOK_of_admissible lead lag hlead calls clock st hinv hadm, ?_, ?_, ?_⟩
  · intro lead τ st w hw
    rcases List.mem_append.mp hw with h | h
    · rcases List.mem_append.mp h with h2 | h2
      · rw [mem_setCoolT τ false st w h2]
        refine ⟨fun _ => rfl, ?_, ?_⟩ <;> intro hx <;> cases hx
      · rw [mem_setFanT τ true _ w h2]
        refine ⟨?_, fun _ => rfl, ?_⟩ <;> intro hx <;> cases hx
    · rw [mem_setHeatT (τ + lead) true _ w h]
      refine ⟨?_, ?_, fun _ => rfl⟩ <;> intro hx <;> cases hx
  · intro lead τ st w hw
    rcases List.mem_append.mp hw with h | h
    · rcases List.mem_append.mp h with h2 | h2
      · rw [mem_setHeatT τ false st w h2]
        refine ⟨fun _ => rfl, ?_, ?_⟩ <;> intro hx <;> cases hx
      · rw [mem_setFanT τ true _ w h2]
        refine ⟨?_, fun _ => rfl, ?_⟩ <;> intro hx <;> cases hx
    · rw [mem_setCoolT (τ + lead) true _ w h]
      refine ⟨?_, ?_, fun _ => rfl⟩ <;> intro hx <;> cases hx
  · intro lag τ st w hw
    rcases List.mem_append.mp hw with h | h
    · rcases List.mem_append.mp h with h2 | h2
      · rw [mem_setHeatT τ false st w h2]
        exact ⟨fun hx => (nomatch hx), fun _ => ⟨rfl, rfl⟩⟩
      · rw [mem_setCoolT τ false _ w h2]
        exact ⟨fun hx => (nomatch hx), fun _ => ⟨rfl, rfl⟩⟩
    · rw [mem_setFanT (τ + lag) false _ w h]
      exact ⟨fun _ => rfl, fun hx => absurd rfl hx⟩

/-- Witness for C3: a concrete admissible `cool_on`; `hvac_off`; `heat_on`
sequence with `fan_lead_s = 5`, `fan_lag_s = 15`, plus one concrete write from
`heat_on` and one from `hvac_off_with_fan_lag`. -/
theorem fan_lead_lag_sequencing_witness :
    runLeadOK 5 15 actStInit callsW = true ∧
    (((⟨0, RName.fan, true⟩ : Write).relay = RName.cool →
        (⟨0, RName.fan, true⟩ : Write) = ⟨0, RName.cool, false⟩) ∧
      ((⟨0, RName.fan, true⟩ : Write).relay = RName.fan →
        (⟨0, RName.fan, true⟩ : Write) = ⟨0, RName.fan, true⟩) ∧
      ((⟨0, RName.fan, true⟩ : Write).relay = RName.heat →
        (⟨0, RName.fan, true⟩ : Write) = ⟨(0 : ℚ) + 5, RName.heat, true⟩)) ∧
    (((⟨15, RName.fan, false⟩ : Write).relay = RName.fan →
        (⟨15, RName.fan, false⟩ : Write) = ⟨(0 : ℚ) + 15, RName.fan, false⟩) ∧
      ((⟨15, RName.fan, false⟩ : Write).relay ≠ RName.fan →
        (⟨15, RName.fan, false⟩ : Write).isOn = false ∧
        (⟨15, RName.fan, false⟩ : Write).time = 0)) :=
  ⟨fan_lead_lag_sequencing.1 5 15 0 actStInit callsW (by decide)
      (fun σ h => by simp [actStInit] at h)
      ⟨by decide, by with_unfolding_all decide, by with_unfolding_all decide, trivial⟩,
   fan_lead_lag_sequencing.2.1 5 0 actStInit ⟨0, RName.fan, true⟩
      (by with_unfolding_all decide),
   fan_lead_lag_sequencing.2.2.2 15 0 actStHvac ⟨15, RName.fan, false⟩
      (by with_unfolding_all decide)⟩

/-- C8: `RelayOut.set` is idempotent and issues a hardware write only when the
request differs from the cached state; consequently a second consecutive
`all_off` issues no hardware write at all, so the pair issues at most one
write per relay. -/
theorem relay_set_idempotent_all_off :
    (∀ (b st : Bool),
        relaySet b (relaySet b st).1 = ((relaySet b st).1, 0) ∧
        (relaySet b st).1 = b ∧
        ((relaySet b st).2 = 0 ↔ b = st))
    ∧ (∀ r : Relays,
        (allOffW (allOffW r).1).2 = (0, 0, 0) ∧
        (allOffW r).2.1 ≤ 1 ∧ (allOffW r).2.2.1 ≤ 1 ∧ (allOffW r).2.2.2 ≤ 1) := by
  constructor
  · intro b st
    cases b <;> cases st <;> decide
  · intro r
    rcases r with ⟨h, c, f⟩
    cases h <;> cases c <;> cases f <;> decide

/-- Once the `evaluate` scan holds a qualifying event, it returns one. -/
theorem pickLast_isSome (hm : String) :
    ∀ (l : List Event) (e : Event), ∃ x, pickLast hm l (some e) = some x
  | [], e => ⟨e, rfl⟩
  | f :: rest, e => by
    unfold pickLast
    split_ifs
    · exact pickLast_isSome hm rest f
    · exact ⟨e, rfl⟩

/-- C4 counterexample: with Monday holding one event and Tuesday empty,
`evaluate` on Tuesday returns `None` although the previous day's event list is
nonempty — so `None` does not require both lists to be empty. -/
theorem evaluate_none_despite_prev_nonempty :
    evaluate schC4 1 "12:00" = none ∧ schC4.days (prevDay 1) ≠ [] := by
  with_unfolding_all decide

/-- C4 (amended): `evaluate` returns `None` iff today's list is empty, or
today's list is nonempty with its first event strictly later than the current
time and the previous day's list empty; the previous-day fallback fires only
when today's list is nonempty and starts after the current time. -/
theorem evaluate_fallback_characterization :
    ∀ (sch : Schedule) (wd : Fin 7) (hm : String),
      (evaluate sch wd hm = none ↔
        sch.days wd = [] ∨
          ∃ e rest, sch.days wd = e :: rest ∧ hm < e.time ∧
            sch.days (prevDay wd) = [])
      ∧ (∀ e rest, sch.days wd = e :: rest → hm < e.time →
          evaluate sch wd hm =
            (sch.days (prevDay wd)).getLast?.map fun ev => (ev.mode, ev.setpoint_c)) := by
  intro sch wd hm
  rcases hd : sch.days wd with _ | ⟨e, rest⟩
  · constructor
    · simp [evaluate, hd]
    · intro e rest he
      exact (List.cons_ne_nil e rest he.symm).elim
  · have hne : e :: rest ≠ ([] : List Event) := List.cons_ne_nil e rest
    by_cases hle : e.time ≤ hm
    · obtain ⟨x, hx⟩ := pickLast_isSome hm rest e
      have heval : evaluate sch wd hm = some (x.mode, x.setpoint_c) := by
        simp [evaluate, hd, hne, pickLast, hle, hx]
      constructor
      · rw [heval]
        constructor
        · intro h
          cases h
        · rintro (h | ⟨e', rest', he', hlt', _⟩)
          · exact absurd h (List.cons_ne_nil e rest)
          · injection he' with h1 _
            subst h1
            exact absurd hlt' (not_lt.mpr hle)
      · intro e' rest' he' hlt'
        injection he' with h1 _
        subst h1
        exact absurd hlt' (not_lt.mpr hle)
    · have hlt : hm < e.time := not_le.mp hle
      have heval : evaluate sch wd hm =
          (sch.days (prevDay wd)).getLast?.map fun ev => (ev.mode, ev.setpoint_c) := by
        simp [evaluate, hd, hne, pickLast, hle]
      constructor
      · rw [heval]
        constructor
        · intro h
          rw [Option.map_eq_none'] at h
          exact Or.inr ⟨e, rest, rfl, hlt, List.getLast?_eq_none_iff.mp h⟩
        · rintro (h | ⟨e', rest', _, _, hprev⟩)
          · exact absurd h (List.cons_ne_nil e rest)
          · rw [hprev]
            rfl
      · intro e' rest' he' hlt'
        exact heval

/-- C9 counterexample: a day with two records at the same time-of-day
round-trips byte-stably but keeps both — the saved output is not
de-duplicated by exact time. -/
theorem schedule_roundtrip_not_dedup :
    saveSchedule (loadSchedule (saveSchedule (loadSchedule rawDup))) 0 =
      saveSchedule (loadSchedule rawDup) 0 ∧
    saveSchedule (loadSchedule rawDup) 0 = [some evDupA, some evDupB] ∧
    evDupA.time = evDupB.time ∧ evDupA ≠ evDupB := by
  with_unfolding_all decide

/-- C9 (amended): `save_schedule(load_schedule ·))` is stable from the second
application on — the re-loaded, re-saved per-day record lists are identical
(hence the emitted YAML bytes are identical), sorted by time and capped at 6
events per day; duplicate times are preserved, not removed. -/
theorem schedule_roundtrip_stable :
    ∀ (raw : Fin 7 → List RawRecord) (d : Fin 7),
      saveSchedule (loadSchedule (saveSchedule (loadSchedule raw))) d =
        saveSchedule (loadSchedule raw) d ∧
      ∃ evs, saveSchedule (loadSchedule raw) d = evs.map some ∧
        List.Sorted evLe evs ∧ evs.length ≤ 6 := by
  intro raw d
  have hlen : (loadDay (raw d)).length ≤ 6 := by
    unfold loadDay
    calc (List.insertionSort evLe (((raw d).take 6).filterMap id)).length
        = (((raw d).take 6).filterMap id).length := List.length_insertionSort _ _
      _ ≤ ((raw d).take 6).length := List.length_filterMap_le _ _
      _ ≤ 6 := List.length_take_le _ _
  have hsorted : List.Sorted evLe (loadDay (raw d)) := List.sorted_insertionSort evLe _
  have htake : (loadDay (raw d)).take 6 = loadDay (raw d) := List.take_of_length_le hlen
  have hsave1 : saveSchedule (loadSchedule raw) d = (loadDay (raw d)).map some := by
    show ((loadDay (raw d)).take 6).map some = (loadDay (raw d)).map some
    rw [htake]
  have hload2 : loadDay ((loadDay (raw d)).map some) = loadDay (raw d) := by
    show List.insertionSort evLe
        (List.filterMap id (List.take 6 (List.map some (loadDay (raw d))))) =
      loadDay (raw d)
    rw [← List.map_take, htake, List.filterMap_map, Function.id_comp,
      List.filterMap_some]
    exact hsorted.insertionSort_eq
  refine ⟨?_, loadDay (raw d), hsave1, hsorted, hlen⟩
  calc saveSchedule (loadSchedule (saveSchedule (loadSchedule raw))) d
      = ((loadDay (saveSchedule (loadSchedule raw) d)).take 6).map some := rfl
    _ = ((loadDay ((loadDay (raw d)).map some)).take 6).map some := by rw [hsave1]
    _ = ((loadDay (raw d)).take 6).map some := by rw [hload2]
    _ = (loadDay (raw d)).map some := by rw [htake]
    _ = saveSchedule (loadSchedule raw) d := hsave1.symm

/-- C10: `load_schedule` truncates to the first 6 records in file order before
validating or sorting.  On `rawBad` the malformed third record consumes a slot
(5 events survive) and the valid seventh record at 01:00 — the earliest
time-of-day — is not pulled in; on `rawSeven` (7 valid records) the kept 6 are
the first 6 in file order sorted by time, not the 6 earliest times. -/
theorem load_truncates_first_six_in_file_order :
    loadDay rawBad =
      [⟨"05:00", "cool", 24⟩, ⟨"06:00", "cool", 24⟩, ⟨"07:00", "heat", 20⟩,
       ⟨"08:00", "auto", 22⟩, ⟨"09:00", "heat", 20⟩] ∧
    (⟨"01:00", "heat", 19⟩ : Event) ∉ loadDay rawBad ∧
    (loadDay rawBad).length = 5 ∧
    loadDay rawSeven =
      [⟨"03:00", "heat", 20⟩, ⟨"05:00", "cool", 24⟩, ⟨"06:00", "cool", 24⟩,
       ⟨"07:00", "heat", 20⟩, ⟨"08:00", "auto", 22⟩, ⟨"09:00", "heat", 20⟩] ∧
    (⟨"01:00", "heat", 19⟩ : Event) ∉ loadDay rawSeven := by
  with_unfolding_all decide

/-- C5 (code divergence): on every tick `last_temp_c` is the raw sensor
reading; `reading_offset_c` is never added, as the concrete offset-1
configuration shows. -/
theorem tick_last_temp_is_raw :
    (∀ (cfg : Control) (sys : Sys) (now t : ℚ),
        (tick cfg sys now t).s.last_temp_c = some t) ∧
    (tick cfgAutoOffset sysInit 0 22).s.last_temp_c = some 22 ∧
    (tick cfgAutoOffset sysInit 0 22).s.last_temp_c ≠
      some (22 + cfgAutoOffset.reading_offset_c) := by
  refine ⟨?_, by with_unfolding_all decide, by with_unfolding_all decide⟩
  intro cfg sys now t
  simp only [tick, stopHvac, startCooling, startHeating]
  split_ifs <;> simp

/-- C6 counterexample: with `mode=auto`, `setpoint_c=22`, `deadband_c=0.5` and
the controller cooling, a tick reading 22.3 (inside the band) does not leave
`current_mode = cooling`. -/
theorem cooling_in_band_does_not_stay :
    (tick cfgAuto sysCooling 100 q223).s.current_mode ≠ CMode.cooling ∧
    q223 = 22.3 := by
  constructor
  · with_unfolding_all decide
  · with_unfolding_all decide

/-- C6 (amended): inside the band neither call is asserted, so the tick stops
HVAC — `current_mode` becomes `idle`, the relays go off (with fan lag) and
`last_cool_off_at` is stamped. -/
theorem cooling_in_band_stops_to_idle :
    (tick cfgAuto sysCooling 100 q223).s.current_mode = CMode.idle ∧
    (tick cfgAuto sysCooling 100 q223).r = ⟨false, false, false⟩ ∧
    (tick cfgAuto sysCooling 100 q223).s.last_cool_off_at = some 100 ∧
    q223 = 22.3 ∧ cfgAuto.setpoint_c = 22 ∧ cfgAuto.deadband_c = 0.5 ∧
    cfgAuto.mode = CfgMode.auto := by
  refine ⟨?_, ?_, ?_, ?_, rfl, ?_, rfl⟩ <;> with_unfolding_all decide

/-- C7 (code divergence): `State` has no fan-mode field and `tick` never
forces the fan: an idle tick with no HVAC demand leaves the fan relay off. -/
theorem idle_tick_fan_stays_off :
    (tick cfgAuto sysInit 10 22).r.fan = false ∧
    (tick cfgAuto sysInit 10 22).s.current_mode = CMode.idle := by
  with_unfolding_all decide

end RVThermostat
